import Mathlib

/-!
Verification of the Analyze workspace of the paper-trading frontend.

This file shallowly embeds the client-side logic of the Analyze page
(`frontend/src/pages/Analyze.tsx`), the API client (`frontend/src/api.ts`),
the pipeline list component (`PipelineSteps`) and the debate panel
(`DebatePanel`/`ThesisPanel`), and proves or refutes the frozen claims about
that code.

JavaScript regular expressions used by the code are embedded as executable
search functions over `List Char` with the same semantics (case-insensitive
matching, greedy classes with backtracking, `.` not matching newline,
leftmost match).  JavaScript numbers are modelled as `ℚ` (no NaN arises in
the modelled inputs; `parseFloat` failure is modelled as `none`).
-/

namespace AnalyzeWorkspace

/- ## Character classes and basic string helpers (JS semantics) -/

/-- JS `\s` on the ASCII range (space, tab, newline, carriage return,
vertical tab, form feed).  The Unicode space classes never occur in the
modelled corpora. -/
def isWsJS (c : Char) : Bool :=
  c = ' ' || c = '\t' || c = '\n' || c = '\r' || c.val == 11 || c.val == 12

/-- JS `\w`: letters, digits and underscore. -/
def isWordChar (c : Char) : Bool := c.isAlphanum || c = '_'

/-- Characters matched by the class `[:\s]`. -/
def isColonWs (c : Char) : Bool := c = ':' || isWsJS c

/-- Characters matched by the class `[\d,.]`. -/
def isNumComma (c : Char) : Bool := c.isDigit || c = ',' || c = '.'

/-- Characters matched by the class `[\d.]`. -/
def isNumDot (c : Char) : Bool := c.isDigit || c = '.'

/-- Case-insensitive character equality (regex `i` flag). -/
def ciEq (a b : Char) : Bool := a.toLower == b.toLower

/-- Does the list start with the given pattern, case-insensitively? -/
def startsWithCIL : List Char → List Char → Bool
  | _, [] => true
  | [], _ :: _ => false
  | a :: as, b :: bs => ciEq a b && startsWithCIL as bs

/-- Case-sensitive starts-with on character lists. -/
def startsWithL : List Char → List Char → Bool
  | _, [] => true
  | [], _ :: _ => false
  | a :: as, b :: bs => (a = b : Bool) && startsWithL as bs

/-- Does the pattern occur (case-insensitively) anywhere in the list? -/
def occursCIL : List Char → List Char → Bool
  | [], pat => pat.isEmpty
  | c :: t, pat => startsWithCIL (c :: t) pat || occursCIL t pat

/-- JS `new RegExp(lit, "i").test(text)` for a plain literal `lit`. -/
def containsCI (text pat : String) : Bool := occursCIL text.data pat.data

/-- JS `String.prototype.trim` (ASCII whitespace). -/
def jsTrimL (cs : List Char) : List Char :=
  ((cs.dropWhile isWsJS).reverse.dropWhile isWsJS).reverse

/-- JS `String.prototype.trim` on strings. -/
def jsTrim (s : String) : String := ⟨jsTrimL s.data⟩

/-- Case-sensitive ends-with on strings. -/
def endsWithStr (s sfx : String) : Bool :=
  startsWithL s.data.reverse sfx.data.reverse

/-- JS `String.prototype.toUpperCase` (ASCII; the tickers and captured
words of the modelled corpora are ASCII). -/
def jsToUpper (s : String) : String := ⟨s.data.map Char.toUpper⟩

/-- JS `String.prototype.toLowerCase` (ASCII). -/
def jsToLower (s : String) : String := ⟨s.data.map Char.toLower⟩

/-- JS `s.split("\n")` on character lists. -/
def splitLinesL : List Char → List (List Char)
  | [] => [[]]
  | c :: t =>
    if c = '\n' then [] :: splitLinesL t
    else
      match splitLinesL t with
      | h :: r => (c :: h) :: r
      | [] => [[c]]

/-- JS `s.split("\n")` on strings. -/
def jsSplitNewlines (s : String) : List String :=
  (splitLinesL s.data).map fun l => (⟨l⟩ : String)

/- ## A small matcher algebra for the code's regular expressions

A matcher consumes some characters from the head of the input and calls the
continuation on the rest; alternation and the star try every possibility, so
`testRE` is faithful to a backtracking regex engine's `test`. -/

/-- Continuation-passing matcher: given input and a continuation on the
remaining input, decide whether some way of matching succeeds. -/
def M : Type := List Char → (List Char → Bool) → Bool

/-- Match a literal, case-insensitively. -/
def litLM : List Char → List Char → (List Char → Bool) → Bool
  | [], cs, k => k cs
  | _ :: _, [], _ => false
  | p :: ps, c :: cs, k => ciEq p c && litLM ps cs k

/-- Literal matcher from a string. -/
def litM (s : String) : M := fun cs k => litLM s.data cs k

/-- `cls*`: try consuming any number of leading class characters
(all split points of the leading run are offered to the continuation). -/
def classStarL (p : Char → Bool) : List Char → (List Char → Bool) → Bool
  | [], k => k []
  | c :: rest, k => k (c :: rest) || (p c && classStarL p rest k)

/-- `cls*` as a matcher. -/
def classStarM (p : Char → Bool) : M := fun cs k => classStarL p cs k

/-- `cls+`: at least one class character, then like `cls*`. -/
def classPlusM (p : Char → Bool) : M := fun cs k =>
  match cs with
  | [] => false
  | c :: rest => p c && classStarL p rest k

/-- A single class character. -/
def clsM (p : Char → Bool) : M := fun cs k =>
  match cs with
  | [] => false
  | c :: rest => p c && k rest

/-- `m?`: optional. -/
def optM (m : M) : M := fun cs k => m cs k || k cs

/-- Sequencing of matchers. -/
def seqM (a b : M) : M := fun cs k => a cs (fun rest => b rest k)

/-- Alternation of matchers. -/
def altM (a b : M) : M := fun cs k => a cs k || b cs k

/-- Alternation of a list of matchers. -/
def altsM (l : List M) : M := l.foldr altM (fun _ _ => false)

/-- `.*` — any characters except newline. -/
def dotStarM : M := classStarM (fun c => c ≠ '\n')

/-- `.?` — at most one character that is not a newline. -/
def dotOptM : M := optM (clsM (fun c => c ≠ '\n'))

/-- Try the matcher at every start position (regex `test` without anchors). -/
def searchL (m : M) : List Char → Bool
  | [] => m [] (fun _ => true)
  | c :: rest => m (c :: rest) (fun _ => true) || searchL m rest

/-- `re.test(text)`. -/
def testRE (m : M) (text : String) : Bool := searchL m text.data

/- ## Capture helpers for the code's capturing regexes

`scanKeys` embeds the leftmost-match discipline of `String.prototype.match`
for regexes of the form `(?:k1|k2|…)⟨tail⟩`: at each position the keys are
tried in order; when a key matches, `attempt` plays the tail of the regex on
the remaining input; a failing tail makes the engine move to the next start
position, exactly as regex backtracking does. -/

/-- Leftmost match of one of `keys` whose tail `attempt` succeeds. -/
def scanKeys {α : Type} (keys : List (List Char)) (attempt : List Char → Option α) :
    List Char → Option α
  | [] => none
  | c :: rest =>
    (keys.findSome? fun kc =>
        if startsWithCIL (c :: rest) kc then attempt ((c :: rest).drop kc.length) else none
      ).orElse fun _ => scanKeys keys attempt rest

/-- Tail `\s*(.+)` (equivalently `\s*([^\n]+)`): greedy whitespace, then a
non-empty capture up to the end of the line.  Backtracking into the greedy
`\s*` happens when it is followed only by a newline or the end of the
input, so split points of the whitespace run are tried longest first. -/
def jsDotPlusAfterWs (cs : List Char) : Option (List Char) :=
  let w := cs.takeWhile isWsJS
  let t := cs.dropWhile isWsJS
  (List.range (w.length + 1)).reverse.findSome? fun i =>
    match w.drop i ++ t with
    | [] => none
    | c :: rest2 => if c = '\n' then none else some ((c :: rest2).takeWhile (fun d => d ≠ '\n'))

/-- Tail `[:\s]+([^\n]+)`: at least one colon/whitespace character (greedy,
with backtracking down to one), then a non-empty capture up to end of
line. -/
def jsClassPlusThenLine (cs : List Char) : Option (List Char) :=
  let w := cs.takeWhile isColonWs
  let t := cs.dropWhile isColonWs
  if w.isEmpty then none
  else
    (List.range w.length).reverse.findSome? fun j =>
      match w.drop (j + 1) ++ t with
      | [] => none
      | c :: rest2 => if c = '\n' then none else some ((c :: rest2).takeWhile (fun d => d ≠ '\n'))

/-- Capture of `(BULL|BEAR|SIDEWAYS)`-style alternatives at the current
position, returning the matched characters with their original casing. -/
def altWordAt (cs : List Char) (ws : List String) : Option String :=
  ws.findSome? fun w => if startsWithCIL cs w.data then some ⟨cs.take w.length⟩ else none

/-- `parseTrade`'s getter `g`: first match of `new RegExp(key + ":\\s*(.+)", "i")`,
captured group trimmed; `null` when the regex does not match. -/
def gKey (text key : String) : Option String :=
  (scanKeys [key.data ++ [':']] jsDotPlusAfterWs text.data).map fun cap => jsTrim ⟨cap⟩

/- ## JS `parseFloat` on ℚ -/

/-- Value of a digit run. -/
def digitsVal (cs : List Char) : ℕ :=
  cs.foldl (fun acc c => acc * 10 + (c.toNat - '0'.toNat)) 0

/-- Exponent part of `parseFloat`: `e`/`E` already consumed; when no digits
follow, the exponent is not part of the number and contributes 0. -/
def expVal (cs : List Char) : ℤ :=
  let cs1 := if cs.head? = some '-' || cs.head? = some '+' then cs.tail else cs
  let ds := cs1.takeWhile Char.isDigit
  if ds.isEmpty then 0
  else (if cs.head? = some '-' then -1 else 1) * (digitsVal ds : ℤ)

/-- The rational denoted by a parsed sign, integer part, fractional part
and exponent. -/
def floatValOf (neg : Bool) (ip fp : List Char) (ex : ℤ) : ℚ :=
  (if neg then -1 else 1) *
    ((digitsVal ip : ℚ) + (digitsVal fp : ℚ) / (10 : ℚ) ^ fp.length) * (10 : ℚ) ^ ex

/-- JS `parseFloat` on a character list: leading whitespace skipped, optional
sign, digits with an optional fractional part, optional exponent; `none`
models NaN (no digits at all). -/
def jsParseFloatL (cs0 : List Char) : Option ℚ :=
  let cs := cs0.dropWhile isWsJS
  let neg : Bool := cs.head? = some '-'
  let cs1 := if cs.head? = some '-' || cs.head? = some '+' then cs.tail else cs
  let ip := cs1.takeWhile Char.isDigit
  let r1 := cs1.dropWhile Char.isDigit
  let fp := if r1.head? = some '.' then r1.tail.takeWhile Char.isDigit else []
  let r2 := if r1.head? = some '.' then r1.tail.dropWhile Char.isDigit else r1
  if ip.isEmpty && fp.isEmpty then none
  else
    let ex : ℤ :=
      if r2.head? = some 'e' || r2.head? = some 'E' then expVal r2.tail else 0
    some (floatValOf neg ip fp ex)

/-- JS `parseFloat` on strings. -/
def jsParseFloat (s : String) : Option ℚ := jsParseFloatL s.data

/- ## JS truthiness helpers -/

/-- Truthiness of a nullable string: non-null and non-empty. -/
def truthyS : Option String → Bool
  | some s => s ≠ ""
  | none => false

/-- Truthiness of a nullable number: non-null and non-zero (NaN does not
arise in the modelled payloads). -/
def truthyQ : Option ℚ → Bool
  | some q => q ≠ 0
  | none => false

/-- JS `a || b` on nullable strings (empty string is falsy). -/
def jsOrStr (a b : Option String) : Option String :=
  if truthyS a then a else b

/-- JS `x || null` on a nullable string: empty string collapses to null. -/
def jsOrNull (a : Option String) : Option String := jsOrStr a none

/-- JS `a || d` on a nullable string against a plain string default. -/
def jsOrStrD (a : Option String) (d : String) : String :=
  match a with
  | some s => if s = "" then d else s
  | none => d

/-- JS `a ?? b` on nullable rationals (nullish coalescing, 0 is kept). -/
def orQ (a b : Option ℚ) : Option ℚ :=
  match a with
  | some x => some x
  | none => b

/- ## `parseTrade` (Analyze.tsx lines 14–54) and `extractRiskDetails` (56–73) -/

/-- The rendered trade record (`TradeData` in `DecisionCard.tsx`); risk
details are a key→value map, modelled as an association list in insertion
order. -/
structure TradeData where
  ticker : Option String
  action : Option String
  entry : Option ℚ
  stop : Option ℚ
  target : Option ℚ
  riskReward : Option ℚ
  regime : Option String
  conviction : Option ℚ
  killed : Bool
  killReason : Option String
  riskDetails : Option (List (String × String))
deriving DecidableEq, Repr

/-- Capture of `/1\s*:\s*([\d.]+)/` inside `num`: the ratio notation
`1 : N`.  The classes `\s` and `[\d.]` are disjoint from `:` and from each
other, so the greedy runs need no backtracking. -/
def rrCapture (v : String) : Option String :=
  scanKeys [['1']]
    (fun rest =>
      match rest.dropWhile isWsJS with
      | ':' :: r2 =>
        let cap := (r2.dropWhile isWsJS).takeWhile isNumDot
        if cap.isEmpty then none else some ⟨cap⟩
      | _ => none)
    v.data

/-- `String(v).replace(/[^\d.-]/g, "")`. -/
def stripToNumChars (v : String) : String :=
  ⟨v.data.filter fun c => c.isDigit || c = '.' || c = '-'⟩

/-- `parseTrade`'s `num` helper: the getter value, rejected when falsy or a
placeholder dash, then either the `1 : N` ratio capture or the stripped
string, through `parseFloat` (`none` models both `null` and NaN results;
`parseFloat` of a `[\d.]+` capture can never be infinite, so the
`Number.isFinite` test only rejects NaN). -/
def numKey (text key : String) : Option ℚ :=
  match gKey text key with
  | none => none
  | some v =>
    if v = "" || v = "—" || v = "N/A" then none
    else
      match rrCapture v with
      | some rs => jsParseFloat rs
      | none => jsParseFloat (stripToNumChars v)

/-- Lookahead `(?=\n\n|\n[A-Z]|\s*$)` of the kill-reason block regex. -/
def reasonStop (cs : List Char) : Bool :=
  (match cs with
    | '\n' :: '\n' :: _ => true
    | _ => false)
  || (match cs with
    | '\n' :: c :: _ => 'A' ≤ c && c ≤ 'Z'
    | _ => false)
  || cs.all isWsJS

/-- Lookahead `(?=\n\n[A-Z]|\s*$)` of the `full_reason` regex. -/
def fullReasonStop (cs : List Char) : Bool :=
  (match cs with
    | '\n' :: '\n' :: c :: _ => 'A' ≤ c && c ≤ 'Z'
    | _ => false)
  || cs.all isWsJS

/-- Lazy capture `([\s\S]*?)` up to the first position where the lookahead
holds (it always holds at the end of the input, so the capture is total). -/
def lazyUntil (stop : List Char → Bool) : List Char → List Char
  | [] => []
  | c :: t => if stop (c :: t) then [] else c :: lazyUntil stop t

/-- `text.match(/Reason:\s*([\s\S]*?)(?=\n\n|\n[A-Z]|\s*$)/i)`: at the first
`Reason:` the greedy `\s*` takes the whole whitespace run (the lazy capture
plus lookahead always succeed afterwards), and the capture extends to the
first stop position. -/
def reasonBlockCapture (text : String) : Option String :=
  scanKeys [("reason:".data)]
    (fun rest => some ⟨lazyUntil reasonStop (rest.dropWhile isWsJS)⟩)
    text.data

/-- `capture.trim().split("\n").filter(Boolean).join(" ")`. -/
def flattenReason (cap : String) : String :=
  String.intercalate " " ((jsSplitNewlines (jsTrim cap)).filter fun l => l ≠ "")

/-- The labels scanned by `extractRiskDetails`. -/
def riskFieldKeys : List String :=
  ["Position Size", "Risk Per Share", "Total Risk",
   "Risk Reward", "Risk Reward Ratio", "Conviction"]

/-- `f.toLowerCase().replace(/ /g, "_")`. -/
def normKeyName (f : String) : String :=
  ⟨(jsToLower f).data.map fun c => if c = ' ' then '_' else c⟩

/-- First match of `new RegExp(f + "[:\\s]+([^\\n]+)", "i")`, used for each
risk-detail label. -/
def riskFieldCapture (text f : String) : Option String :=
  (scanKeys [f.data] jsClassPlusThenLine text.data).map fun cap => (⟨cap⟩ : String)

/-- `/(?:Reason|Kill Reason)[:\s]+([\s\S]*?)(?=\n\n[A-Z]|\s*$)/i`: the keys
have no colon of their own; `[:\s]+` must consume at least one character,
then the lazy block capture runs to the first stop position. -/
def fullReasonCapture (text : String) : Option String :=
  scanKeys [("reason".data), ("kill reason".data)]
    (fun rest =>
      if (rest.takeWhile isColonWs).isEmpty then none
      else some ⟨lazyUntil fullReasonStop (rest.dropWhile isColonWs)⟩)
    text.data

/-- `/(?:key1|key2)[:\s]+(\w+)/i`: word characters are outside `[:\s]`, so
only the maximal class run can be followed by the `\w+` capture. -/
def wordAfterColonWs (text : String) (keys : List String) : Option String :=
  scanKeys (keys.map String.data)
    (fun rest =>
      if (rest.takeWhile isColonWs).isEmpty then none
      else
        let cap := (rest.dropWhile isColonWs).takeWhile isWordChar
        if cap.isEmpty then none else some ⟨cap⟩)
    text.data

/-- `extractRiskDetails` (Analyze.tsx 56–73): a map assembled in insertion
order; `none` when nothing was captured. -/
def extractRiskDetails (text : String) : Option (List (String × String)) :=
  let base := riskFieldKeys.foldl
    (fun acc f =>
      match riskFieldCapture text f with
      | some cap => acc ++ [(normKeyName f, jsTrim cap)]
      | none => acc)
    []
  let d1 :=
    match fullReasonCapture text with
    | some cap => base ++ [("full_reason", jsTrim cap)]
    | none => base
  let d2 :=
    match wordAfterColonWs text ["Regime"] with
    | some w => d1 ++ [("regime", w)]
    | none => d1
  let d3 :=
    match wordAfterColonWs text ["Decision", "Action"] with
    | some w => d2 ++ [("action", w)]
    | none => d2
  if d3.isEmpty then none else some d3

/-- `parseTrade` (Analyze.tsx 14–54). -/
def parseTrade (text : String) : TradeData :=
  let killReason0 := jsOrStr (gKey text "Reason") (gKey text "Kill Reason")
  let killReason :=
    if truthyS killReason0 then killReason0
    else
      match reasonBlockCapture text with
      | some cap => some (flattenReason cap)
      | none => killReason0
  let statusVal := jsOrStrD (jsOrStr (gKey text "Status") (gKey text "Killed")) ""
  let killed := containsCI statusVal "REJECTED" || containsCI statusVal "True"
  { ticker := gKey text "Ticker",
    action :=
      (jsOrStr (jsOrStr (gKey text "Verdict") (gKey text "Action")) (gKey text "Signal")).map
        jsToUpper,
    entry := orQ (numKey text "Entry") (numKey text "Entry Price"),
    stop := orQ (numKey text "Stop Loss") (numKey text "Stop"),
    target := numKey text "Target",
    riskReward := orQ (numKey text "Risk Reward") (numKey text "Risk Reward Ratio"),
    regime := gKey text "Regime",
    conviction := numKey text "Conviction",
    killed := killed,
    killReason := killReason,
    riskDetails := if killed then extractRiskDetails text else none }

/- ## `parsePipelineSteps` (Analyze.tsx 75–171) -/

/-- The fixed step names (`names` in `parsePipelineSteps`). -/
def stepNames : List String :=
  ["Regime Analyst", "Stock Scanner", "Dividend Scanner",
   "Debate (Bull vs Bear)", "Trade Executor", "Portfolio Manager", "Autonomous Flow"]

/-- `/regime[:\s]*(BULL|BEAR|SIDEWAYS)|market regime|regime_suitability/i`. -/
def regimeRE : M :=
  altsM
    [seqM (litM "regime")
      (seqM (classStarM isColonWs)
        (altsM [litM "BULL", litM "BEAR", litM "SIDEWAYS"])),
     litM "market regime",
     litM "regime_suitability"]

/-- `/scan_watchlist|breakout|oversold|stocks_scanned|signal_counts|rsi[:\s]*\d|above_50dma|support_zone/i`. -/
def stockScannerRE : M :=
  altsM
    [litM "scan_watchlist", litM "breakout", litM "oversold",
     litM "stocks_scanned", litM "signal_counts",
     seqM (litM "rsi") (seqM (classStarM isColonWs) (clsM Char.isDigit)),
     litM "above_50dma", litM "support_zone"]

/-- `/dividend|yield|ex.?date/i`. -/
def dividendRE : M :=
  altsM [litM "dividend", litM "yield", seqM (litM "ex") (seqM dotOptM (litM "date"))]

/-- `/bull.*case|bear.*case|bull_thesis|bear_thesis|cio_decision|debate|bull.*advocate|bear.*advocate/i`. -/
def debateRE : M :=
  altsM
    [seqM (litM "bull") (seqM dotStarM (litM "case")),
     seqM (litM "bear") (seqM dotStarM (litM "case")),
     litM "bull_thesis", litM "bear_thesis", litM "cio_decision", litM "debate",
     seqM (litM "bull") (seqM dotStarM (litM "advocate")),
     seqM (litM "bear") (seqM dotStarM (litM "advocate"))]

/-- `/entry.*(?:price)?[:\s]*[\d,.]+|stop.*loss[:\s]*[\d,.]+|target[:\s]*[\d,.]+|risk.?reward|trade.*plan|check_risk|paper.*trade/i`. -/
def tradeExecRE : M :=
  altsM
    [seqM (litM "entry")
      (seqM dotStarM
        (seqM (optM (litM "price")) (seqM (classStarM isColonWs) (classPlusM isNumComma)))),
     seqM (litM "stop")
      (seqM dotStarM
        (seqM (litM "loss") (seqM (classStarM isColonWs) (classPlusM isNumComma)))),
     seqM (litM "target") (seqM (classStarM isColonWs) (classPlusM isNumComma)),
     seqM (litM "risk") (seqM dotOptM (litM "reward")),
     seqM (litM "trade") (seqM dotStarM (litM "plan")),
     litM "check_risk",
     seqM (litM "paper") (seqM dotStarM (litM "trade"))]

/-- `/portfolio|holdings|cash.*(?:balance|available)|unrealized|positions/i`. -/
def portfolioRE : M :=
  altsM
    [litM "portfolio", litM "holdings",
     seqM (litM "cash") (seqM dotStarM (altM (litM "balance") (litM "available"))),
     litM "unrealized", litM "positions"]

/-- `/autonomous|trading.*loop|scan.*execute|auto.*trade/i`. -/
def autonomousRE : M :=
  altsM
    [litM "autonomous",
     seqM (litM "trading") (seqM dotStarM (litM "loop")),
     seqM (litM "scan") (seqM dotStarM (litM "execute")),
     seqM (litM "auto") (seqM dotStarM (litM "trade"))]

/-- `patterns[name]?.test(text)`: the per-step evidence pattern; a name not
in the table (the empty name used for extra backend entries) is falsy. -/
def stepPattern (name : String) (text : String) : Bool :=
  if name = "Regime Analyst" then testRE regimeRE text
  else if name = "Stock Scanner" then testRE stockScannerRE text
  else if name = "Dividend Scanner" then testRE dividendRE text
  else if name = "Debate (Bull vs Bear)" then testRE debateRE text
  else if name = "Trade Executor" then testRE tradeExecRE text
  else if name = "Portfolio Manager" then testRE portfolioRE text
  else if name = "Autonomous Flow" then testRE autonomousRE text
  else false

/-- `/REJECTED|SKIPPED|killed/i.test(text)`. -/
def rejectedEvidence (text : String) : Bool :=
  containsCI text "REJECTED" || containsCI text "SKIPPED" || containsCI text "killed"

/-- Capture of `/regime[:\s]*(BULL|BEAR|SIDEWAYS)/i`; the alternative words
start outside `[:\s]`, so only the maximal class run precedes a capture. -/
def regimeCapture (text : String) : Option String :=
  scanKeys [("regime".data)]
    (fun rest => altWordAt (rest.dropWhile isColonWs) ["BULL", "BEAR", "SIDEWAYS"])
    text.data

/-- Capture of `/(?:Reason|Kill Reason):\s*([^\n]+)/i` (not trimmed). -/
def reasonLineCapture (text : String) : Option String :=
  (scanKeys [("reason:".data), ("kill reason:".data)] jsDotPlusAfterWs text.data).map
    fun cap => (⟨cap⟩ : String)

/-- Capture of `/(?:k1|k2|…):\s*(\w+)/i`; word characters are not
whitespace, so only the maximal whitespace run precedes a capture. -/
def wordCapture (keys : List String) (text : String) : Option String :=
  scanKeys (keys.map fun k => k.data ++ [':'])
    (fun rest =>
      let cap := (rest.dropWhile isWsJS).takeWhile isWordChar
      if cap.isEmpty then none else some ⟨cap⟩)
    text.data

/-- Capture of `/(?:Verdict|Decision):\s*(BUY|SELL|HOLD)/i`. -/
def verdictCapture (text : String) : Option String :=
  scanKeys [("verdict:".data), ("decision:".data)]
    (fun rest => altWordAt (rest.dropWhile isWsJS) ["BUY", "SELL", "HOLD"])
    text.data

/-- `m[1].slice(0, 60)`. -/
def take60 (s : String) : String := ⟨s.data.take 60⟩

/-- Regime Analyst summary synthesis. -/
def regimeSummary (text : String) : String :=
  match regimeCapture text with
  | some r => "Market regime: " ++ r
  | none => "Regime analyzed"

/-- Trade Executor summary when flagged, backend branch (line 112). -/
def tradeExecFlaggedSummaryBackend (text : String) : String :=
  match reasonLineCapture text with
  | some r => "REJECTED: " ++ take60 r
  | none => "Trade rejected"

/-- Trade Executor summary when flagged, fallback branch (line 151). -/
def tradeExecFlaggedSummaryFallback (text : String) : String :=
  match reasonLineCapture text with
  | some r => "REJECTED: " ++ take60 r
  | none => "Trade rejected/skipped"

/-- Trade Executor summary when not flagged. -/
def tradeExecActionSummary (text : String) : String :=
  match wordCapture ["Decision", "Action", "Verdict", "Signal"] text with
  | some a => "Decision: " ++ a
  | none => "Trade evaluated"

/-- Debate step summary synthesis. -/
def debateSummary (text : String) : String :=
  match verdictCapture text with
  | some v => "Verdict: " ++ v
  | none => "Debate complete"

/-- A raw backend step object as received over the wire (all fields may be
absent). -/
structure RawStep where
  status : Option String
  summary : Option String
  output : Option String
  duration : Option String
deriving DecidableEq, Repr

/-- A parsed pipeline step (`StepData` in `PipelineSteps`); the status is
kept as the string the code produces or adopts verbatim. -/
structure StepData where
  status : String
  summary : Option String
  output : Option String
  duration : Option String
deriving DecidableEq, Repr

/-- One entry of the backend branch of `parsePipelineSteps` (lines 96–126):
adopt the backend fields, upgrading a pending status when the text shows
evidence for this step. -/
def upgradeStep (text name : String) (st : RawStep) : StepData :=
  let status0 := jsOrStrD st.status "pending"
  let summary0 := jsOrNull st.summary
  let output0 := jsOrNull st.output
  if status0 = "pending" && stepPattern name text then
    if name = "Regime Analyst" then
      { status := "complete", summary := some (regimeSummary text),
        output := output0, duration := none }
    else if name = "Trade Executor" then
      if rejectedEvidence text then
        { status := "flagged", summary := some (tradeExecFlaggedSummaryBackend text),
          output := output0, duration := none }
      else
        { status := "complete", summary := some (tradeExecActionSummary text),
          output := output0, duration := none }
    else if name = "Debate (Bull vs Bear)" then
      { status := "complete", summary := some (debateSummary text),
        output := output0, duration := none }
    else
      { status := "complete", summary := some "Complete",
        output := output0, duration := none }
  else
    { status := status0, summary := summary0, output := output0, duration := none }

/-- One entry of the text-only fallback branch (lines 130–170). -/
def fallbackStep (text name : String) : StepData :=
  let matched := stepPattern name text
  let isFlagged := name = "Trade Executor" && rejectedEvidence text
  let summary : Option String :=
    if matched then
      if name = "Regime Analyst" then some (regimeSummary text)
      else if name = "Trade Executor" then
        if isFlagged then some (tradeExecFlaggedSummaryFallback text)
        else some (tradeExecActionSummary text)
      else if name = "Debate (Bull vs Bear)" then some (debateSummary text)
      else some "Complete"
    else none
  { status := if isFlagged then "flagged" else if matched then "complete" else "pending",
    summary := summary, output := none, duration := none }

/-- `parsePipelineSteps(text, backendSteps)`: the backend branch maps over
the backend array (index `i` beyond the seven names gets the empty name),
the fallback branch maps over the seven names. -/
def parsePipelineSteps (text : String) (backendSteps : Option (List RawStep)) :
    List StepData :=
  match backendSteps with
  | some bs =>
    if stepNames.length ≤ bs.length then
      bs.enum.map fun p => upgradeStep text (stepNames.getD p.1 "") p.2
    else stepNames.map fun name => fallbackStep text name
  | none => stepNames.map fun name => fallbackStep text name

/- ## Debate extraction (`parseBullBear.extractPoints` / `extractConviction`,
Analyze.tsx 174–191) and typed debate adoption (369–381)

The bull/bear section splitting (`tryExtractBullBear`) only chooses which
substring each extractor runs on; every conviction reaching the debate view
from text is `extractConviction` of some section, and every typed one is
adopted by `adoptedThesis`, so those two functions carry the claims. -/

/-- The leading-bullet class `[\s•\-\d.]` of `extractPoints`. -/
def bulletClass (c : Char) : Bool :=
  isWsJS c || c = '•' || c = '-' || c.isDigit || c = '.'

/-- `l.replace(/^[\s•\-\d.]+/, "").trim()`: the anchored first match is the
leading run of the class. -/
def stripBullet (l : String) : String := jsTrim ⟨l.data.dropWhile bulletClass⟩

/-- `/^(Conviction|BULL_THESIS|BEAR_THESIS|CIO_DECISION):/i` on a line. -/
def isSectionHeader (l : String) : Bool :=
  startsWithCIL l.data ("conviction:".data)
  || startsWithCIL l.data ("bull_thesis:".data)
  || startsWithCIL l.data ("bear_thesis:".data)
  || startsWithCIL l.data ("cio_decision:".data)

/-- `extractPoints` (Analyze.tsx 174–181). -/
def extractPoints (sectionText : String) : List String :=
  if sectionText = "" then []
  else
    ((((jsSplitNewlines sectionText).map stripBullet).filter fun l =>
        decide (10 < l.length) && decide (l.length < 300) && !isSectionHeader l)).take 6

/-- Capture of `/Conviction:\s*([\d.]+)/i`; `[\d.]` is disjoint from `\s`,
so only the maximal whitespace run precedes a capture. -/
def convictionCapture (text : String) : Option String :=
  scanKeys [("conviction:".data)]
    (fun rest =>
      let cap := (rest.dropWhile isWsJS).takeWhile isNumDot
      if cap.isEmpty then none else some ⟨cap⟩)
    text.data

/-- `extractConviction` (Analyze.tsx 183–191). -/
def extractConviction (sectionText : String) : ℚ :=
  if sectionText = "" then 1 / 2
  else
    match convictionCapture sectionText with
    | some cap =>
      match jsParseFloat cap with
      | some v => if 1 < v then v / 100 else v
      | none => 1 / 2
    | none => 1 / 2

/-- The numeric value the conviction regex parses out of a section, before
the percentage correction. -/
def parsedConvictionValue (s : String) : Option ℚ :=
  (convictionCapture s).bind jsParseFloat

/-- A typed debate side as sent by the server. -/
structure BackendDebateSide where
  points : Option (List String)
  conviction : Option ℚ
deriving DecidableEq, Repr

/-- A thesis as rendered by the debate view. -/
structure ThesisView where
  points : List String
  conviction : ℚ
deriving DecidableEq, Repr

/-- Typed debate adoption (Analyze.tsx 371–378): `points || []` (arrays are
truthy, `null`/absent becomes `[]`) and `conviction ?? 0.5`. -/
def adoptedThesis (b : BackendDebateSide) : ThesisView :=
  { points := b.points.getD [], conviction := b.conviction.getD (1 / 2) }

/- ## Debate panel rendering (`ThesisPanel` / `DebatePanel`) -/

/-- `Math.round` on ℚ: halves round toward positive infinity. -/
def jsRound (q : ℚ) : ℤ := ⌊q + 1 / 2⌋

/-- `Math.round((conviction || 0) * 100)`, the conviction bar width in
percent; `conviction || 0` is the identity on rationals (0 maps to 0 and
NaN cannot arise). -/
def renderedBarWidthPct (conviction : ℚ) : ℤ := jsRound (conviction * 100)

/-- `highlighted={selectedStepIndex === 3}` for the bull panel. -/
def bullHighlighted (selectedStepIndex : Option ℕ) : Bool :=
  selectedStepIndex == some 3

/-- `highlighted={selectedStepIndex === 3}` for the bear panel. -/
def bearHighlighted (selectedStepIndex : Option ℕ) : Bool :=
  selectedStepIndex == some 3

/- ## Pipeline list view (`PipelineSteps`, src/unnamed/part_009) -/

/-- The component's fixed `(name, icon)` table. -/
def PIPELINE_STEPS : List (String × String) :=
  [("Regime Analyst", "analytics"), ("Stock Scanner", "search"),
   ("Dividend Scanner", "payments"), ("Debate (Bull vs Bear)", "gavel"),
   ("Trade Executor", "trending_up"), ("Portfolio Manager", "account_balance"),
   ("Autonomous Flow", "smart_toy")]

/-- One rendered row of the pipeline list. -/
structure PipelineRow where
  name : String
  icon : String
  status : String
  summary : Option String
  output : Option String
  duration : Option String
deriving DecidableEq, Repr

/-- `PIPELINE_STEPS.map((s, i) => ({...s, ...(steps?.[i] || default)}))`:
the rendered rows always follow the seven-entry table; a missing or short
`steps` value falls back to a pending slot. -/
def pipelineViewRows (steps : Option (List StepData)) : List PipelineRow :=
  PIPELINE_STEPS.enum.map fun p =>
    let sd : StepData :=
      match steps.bind fun l => l.get? p.1 with
      | some st => st
      | none => { status := "pending", summary := none, output := none, duration := none }
    { name := p.2.1, icon := p.2.2, status := sd.status, summary := sd.summary,
      output := sd.output, duration := sd.duration }

/- ## API client requests (`api.ts`) -/

/-- One OHLCV bar (`Candle` in `MarketChart`). -/
structure Candle where
  date : String
  open_ : ℚ
  high : ℚ
  low : ℚ
  close : ℚ
  volume : ℚ
  sma20 : Option ℚ
  sma50 : Option ℚ
  sma200 : Option ℚ
  rsi : Option ℚ
deriving DecidableEq, Repr

/-- The observable shape of the market GET issued by `fetchMarket`
(api.ts 41–74): query parameters and whether an abort signal is attached
to the transport request.  `fetchMarket` calls `fetch(url, { method:
"GET" })` with no `AbortController`, so no signal is attached. -/
structure MarketRequest where
  method : String
  path : String
  ticker : String
  period : String
  interval : String
  limit : ℕ
  hasAbortSignal : Bool
deriving DecidableEq, Repr

/-- The request `fetchMarket` builds from its arguments. -/
def fetchMarketRequest (ticker period interval : String) (limit : ℕ) : MarketRequest :=
  { method := "GET", path := "/api/market", ticker := ticker, period := period,
    interval := interval, limit := limit, hasAbortSignal := false }

/-- One entry of the `PERIODS` table (Analyze.tsx 252–258). -/
structure PeriodEntry where
  label : String
  period : String
  interval : String
deriving DecidableEq, Repr

/-- The `PERIODS` table. -/
def PERIODS : List PeriodEntry :=
  [⟨"1D", "5d", "15m"⟩, ⟨"1W", "1mo", "1h"⟩, ⟨"1M", "6mo", "1d"⟩,
   ⟨"3M", "1y", "1d"⟩, ⟨"1Y", "2y", "1d"⟩]

/-- The market request issued by the chart effect (Analyze.tsx 293–298):
`ticker.trim() || "RELIANCE"`, period/interval from the table, limit 260.
`periodIdx` only ever takes the values 0–4 offered by the period buttons,
so the `getD` default is never reached. -/
def chartEffectRequest (ticker : String) (periodIdx : ℕ) : MarketRequest :=
  let p := PERIODS.getD periodIdx ⟨"", "", ""⟩
  fetchMarketRequest (if jsTrim ticker = "" then "RELIANCE" else jsTrim ticker)
    p.period p.interval 260

/-- The observable shape of the analyze POST issued by `runAnalysis`
(api.ts 3–16): `ticker.trim().toUpperCase()` in the body, an
`AbortController` signal attached, and a 300 000 ms abort timer. -/
structure AnalyzeRequest where
  method : String
  path : String
  bodyTicker : String
  hasAbortSignal : Bool
  timeoutMs : ℕ
deriving DecidableEq, Repr

/-- The request `runAnalysis` builds from its ticker argument. -/
def runAnalysisRequest (ticker : String) : AnalyzeRequest :=
  { method := "POST", path := "/api/analyze", bodyTicker := jsToUpper (jsTrim ticker),
    hasAbortSignal := true, timeoutMs := 300000 }

/- ## Chart fetch channel (Analyze.tsx 288–316)

Each run of the chart effect owns a `cancelled` flag; the cleanup that runs
when `ticker` or `periodIdx` changes sets the flag of the superseded run,
so at any point exactly the most recent run has `cancelled = false`.  The
state numbers dispatches; a response event carries the ordinal of the
request it answers, and the guarded callbacks (`then`/`catch`/`finally`)
are the identity when the flag of that request is set, i.e. when it is not
the latest. -/

/-- The chart slice of the workspace state. -/
structure ChartState where
  latest : ℕ
  candles : List Candle
  chartError : Option String
  chartLoading : Bool
deriving DecidableEq, Repr

/-- What a market fetch settles to: a JSON payload (any `status`), or a
transport-level rejection. -/
inductive MarketOutcome where
  | payload (status : String) (candles : Option (List Candle)) (errorMessage : Option String)
  | transportFailure (msg : String)
deriving DecidableEq, Repr

/-- An event on the chart channel: a dispatch (the effect re-runs because
`ticker` or `periodIdx` changed) or the settlement of request `reqId`. -/
inductive ChartEvent where
  | dispatch
  | response (reqId : ℕ) (result : MarketOutcome)
deriving DecidableEq, Repr

/-- The un-cancelled response handlers (Analyze.tsx 299–313): non-success
payloads surface `error_message || "Failed to load chart"` and clear the
candles, success replaces them with `candles || []`; a rejection surfaces
the transport message; `finally` clears the loading flag. -/
def applyMarket (s : ChartState) (o : MarketOutcome) : ChartState :=
  match o with
  | .payload st cnds emsg =>
    if st ≠ "success" then
      { s with chartError := some (jsOrStrD emsg "Failed to load chart"),
               candles := [], chartLoading := false }
    else
      { s with candles := cnds.getD [], chartLoading := false }
  | .transportFailure msg =>
    { s with chartError := some msg, chartLoading := false }

/-- One chart-channel step.  A dispatch marks loading, clears the error,
leaves the candles untouched (the code has no `setCandles([])` in the
effect body) and supersedes all earlier requests; a response to anything
but the latest request is discarded by the `cancelled` guards. -/
def chartStep (s : ChartState) (e : ChartEvent) : ChartState :=
  match e with
  | .dispatch =>
    { s with latest := s.latest + 1, chartLoading := true, chartError := none }
  | .response i o => if i = s.latest then applyMarket s o else s

/-- Run a list of chart events. -/
def chartRun : ChartState → List ChartEvent → ChartState
  | s, [] => s
  | s, e :: t => chartRun (chartStep s e) t

/-- What the chart card renders (Analyze.tsx 465–475): the spinner while
loading, else the error text when truthy, else the chart when candles are
non-empty, else the placeholder. -/
inductive ChartPanelView where
  | loadingSpinner
  | errorText (msg : String)
  | chart (candles : List Candle)
  | noData
deriving DecidableEq, Repr

/-- The chart card's render function. -/
def renderChartPanel (s : ChartState) : ChartPanelView :=
  if s.chartLoading then .loadingSpinner
  else if truthyS s.chartError then .errorText (s.chartError.getD "")
  else if 0 < s.candles.length then .chart s.candles
  else .noData

/-- An event is a response to a request other than `n`. -/
def staleResponseFor (n : ℕ) : ChartEvent → Prop
  | .response i _ => i ≠ n
  | .dispatch => False

/- ## Analysis channel: `runAnalysis` (api.ts 3–27) and `handleRun`
(Analyze.tsx 318–389) -/

/-- A typed trade object from the analyze payload (every field may be
absent). -/
structure BackendTrade where
  ticker : Option String
  action : Option String
  entry : Option ℚ
  stop : Option ℚ
  target : Option ℚ
  riskReward : Option ℚ
  regime : Option String
  conviction : Option ℚ
  killed : Option Bool
  killReason : Option String
  riskDetails : Option (List (String × String))
deriving DecidableEq, Repr

/-- A typed debate object from the analyze payload. -/
structure BackendDebate where
  bull : Option BackendDebateSide
  bear : Option BackendDebateSide
deriving DecidableEq, Repr

/-- The JSON body of a 2xx analyze response. -/
structure AnalysisPayload where
  reply : Option String
  steps : Option (List RawStep)
  trade : Option BackendTrade
  debate : Option BackendDebate
deriving DecidableEq, Repr

/-- How the analyze fetch settles: an HTTP response (`ok` is
`res.ok`), or a rejection carrying the JS error's `name` and `message`
(the 5-minute timer firing `controller.abort()` rejects the fetch with an
`AbortError`). -/
inductive FetchOutcome where
  | response (ok : Bool) (status : ℕ) (body : AnalysisPayload)
  | netError (name : String) (msg : String)
deriving DecidableEq, Repr

/-- Did the fetch settle with an `AbortError` (deadline elapsed)? -/
def FetchOutcome.isAbortError : FetchOutcome → Bool
  | .netError name _ => name = "AbortError"
  | _ => false

/-- The exact message surfaced for the 5-minute deadline. -/
def analysisTimeoutMessage : String := "Analysis timed out (>5 min). Try again."

/-- `runAnalysis` error mapping (api.ts 10–26): non-ok HTTP throws
`API error: {status}` (a plain `Error`, rethrown by the catch clause),
an `AbortError` is replaced by the timeout message, and any other
rejection is rethrown with its own message. -/
def runAnalysisResult (o : FetchOutcome) : Except String AnalysisPayload :=
  match o with
  | .response true _ body => .ok body
  | .response false status _ => .error ("API error: " ++ toString status)
  | .netError name msg =>
    if name = "AbortError" then .error analysisTimeoutMessage else .error msg

/-- The guard of the typed-trade branch (Analyze.tsx 347):
`backendTrade.action || backendTrade.entry` under JS truthiness. -/
def tradeGuard (bt : BackendTrade) : Bool :=
  truthyS bt.action || truthyQ bt.entry

/-- `fullText`: the reply, extended by `"\n\n" + step.output` for every
backend step with a truthy output (Analyze.tsx 339–344). -/
def buildFullText (reply : String) (backendSteps : Option (List RawStep)) : String :=
  match backendSteps with
  | some bs =>
    bs.foldl
      (fun acc st =>
        match st.output with
        | some o => if o = "" then acc else acc ++ "\n\n" ++ o
        | none => acc)
      reply
  | none => reply

/-- The trade written by `handleRun` (Analyze.tsx 346–364): the typed
branch when the guard holds, otherwise `parseTrade` over the corpus with
the ticker falling back to the caller's. -/
def renderedTrade (backendTrade : Option BackendTrade) (fullText ticker : String) :
    TradeData :=
  match backendTrade with
  | some bt =>
    if tradeGuard bt then
      { ticker := some (jsOrStrD bt.ticker ticker),
        action := jsOrNull bt.action,
        entry := bt.entry,
        stop := bt.stop,
        target := bt.target,
        riskReward := bt.riskReward,
        regime := jsOrNull bt.regime,
        conviction := bt.conviction,
        killed := bt.killed == some true,
        killReason := jsOrNull bt.killReason,
        riskDetails := bt.riskDetails }
    else
      let td := parseTrade fullText
      { td with ticker := jsOrStr td.ticker (some ticker) }
  | none =>
    let td := parseTrade fullText
    { td with ticker := jsOrStr td.ticker (some ticker) }

/-- The analysis slice of the workspace state after `handleRun` settles.
The debate column is part of the same state in the code; its construction
is modelled separately by `adoptedThesis` / `extractConviction` /
`extractPoints` and omitted from this record. -/
structure AnalysisState where
  loading : Bool
  trade : Option TradeData
  steps : Option (List StepData)
  error : Option String
  selectedStepIndex : Option ℕ
deriving DecidableEq, Repr

/-- `handleRun` after the fetch settles: the success path parses trade and
steps from the payload (error stays cleared), the catch path surfaces the
message and resets the steps, and `finally` clears the loading flag; the
selection was cleared when the run started and is not restored. -/
def handleRunOutcome (o : FetchOutcome) (ticker : String) : AnalysisState :=
  match runAnalysisResult o with
  | .ok payload =>
    let reply := payload.reply.getD ""
    let fullText := buildFullText reply payload.steps
    { loading := false,
      trade := some (renderedTrade payload.trade fullText ticker),
      steps := some (parsePipelineSteps fullText payload.steps),
      error := none,
      selectedStepIndex := none }
  | .error msg =>
    { loading := false, trade := none, steps := none, error := some msg,
      selectedStepIndex := none }

/- ## Concrete instances used by witnesses and counterexamples -/

/-- A backend steps array of seven already-complete entries. -/
def bs7complete : List RawStep :=
  List.replicate 7
    { status := some "complete", summary := some "done", output := none, duration := none }

/-- A backend steps array of eight entries (longer than the step table). -/
def bs8complete : List RawStep :=
  List.replicate 8
    { status := some "complete", summary := some "done", output := none, duration := none }

/-- A backend steps array of seven entries with absent statuses (all
falling back to pending). -/
def bs7pending : List RawStep :=
  List.replicate 7 { status := none, summary := none, output := none, duration := none }

/-- A typed trade with `entry` set to the (falsy) price 0 and no action. -/
def btEntryZero : BackendTrade :=
  { ticker := none, action := none, entry := some 0, stop := none, target := none,
    riskReward := none, regime := none, conviction := none, killed := none,
    killReason := none, riskDetails := none }

/-- A typed trade with a non-empty action, used by the typed-precedence
witness. -/
def btBuy : BackendTrade :=
  { ticker := some "RELIANCE", action := some "BUY", entry := some 2800, stop := some 2755,
    target := some 3050, riskReward := some (111 / 20), regime := some "BULL",
    conviction := some (7 / 10), killed := some false, killReason := none,
    riskDetails := none }

/-- A concrete candle. -/
def candle0 : Candle :=
  { date := "2024-01-01", open_ := 100, high := 110, low := 95, close := 105,
    volume := 1000, sma20 := none, sma50 := none, sma200 := none, rsi := none }

/-- A second concrete candle (payload of the most recent request in the
cancellation witness). -/
def candle1 : Candle :=
  { date := "2024-01-02", open_ := 200, high := 210, low := 195, close := 205,
    volume := 2000, sma20 := none, sma50 := none, sma200 := none, rsi := none }

/-- A chart state showing one candle, not loading. -/
def chartS0 : ChartState :=
  { latest := 0, candles := [candle0], chartError := none, chartLoading := false }

/- ## Helper lemmas -/

theorem wsJS_val (c : Char) (h : isWsJS c = true) :
    c = ' ' ∨ c = '\t' ∨ c = '\n' ∨ c = '\r' ∨ c.val = 11 ∨ c.val = 12 := by
  simp [isWsJS] at h
  tauto

theorem isDigit_not_wsJS (c : Char) (h : c.isDigit = true) : isWsJS c = false := by
  by_contra hw
  rw [Bool.not_eq_false] at hw
  simp only [Char.isDigit, Bool.and_eq_true, decide_eq_true_eq] at h
  rcases wsJS_val c hw with h1 | h1 | h1 | h1 | h1 | h1
  · subst h1; exact absurd h (by decide)
  · subst h1; exact absurd h (by decide)
  · subst h1; exact absurd h (by decide)
  · subst h1; exact absurd h (by decide)
  · have h2 := h.1; rw [h1] at h2; exact absurd h2 (by decide)
  · have h2 := h.1; rw [h1] at h2; exact absurd h2 (by decide)

theorem scanKeys_some {α : Type} (keys : List (List Char)) (attempt : List Char → Option α) :
    ∀ (cs : List Char) (x : α), scanKeys keys attempt cs = some x →
      ∃ rest, attempt rest = some x := by
  intro cs
  induction cs with
  | nil => intro x h; simp [scanKeys] at h
  | cons c t ih =>
    intro x h
    rw [scanKeys] at h
    rcases hfs : keys.findSome? (fun kc =>
        if startsWithCIL (c :: t) kc then attempt ((c :: t).drop kc.length) else none) with
      _ | y
    · rw [hfs] at h
      simp only [Option.orElse] at h
      exact ih x h
    · rw [hfs] at h
      simp only [Option.orElse] at h
      obtain ⟨kc, _, hkc⟩ := List.exists_of_findSome?_eq_some hfs
      by_cases hs : startsWithCIL (c :: t) kc = true
      · rw [if_pos hs] at hkc
        exact ⟨_, by rw [hkc, h]⟩
      · rw [if_neg hs] at hkc
        exact absurd hkc (by simp)

theorem convictionCapture_chars (s cap : String) (h : convictionCapture s = some cap) :
    ∀ c ∈ cap.data, isNumDot c = true := by
  obtain ⟨rest, hr⟩ := scanKeys_some _ _ _ _ h
  dsimp only at hr
  split at hr
  · exact absurd hr (by simp)
  · obtain rfl := (Option.some.inj hr).symm
    intro c hc
    exact List.mem_takeWhile_imp hc

theorem floatValOf_nonneg (ip fp : List Char) (ex : ℤ) : 0 ≤ floatValOf false ip fp ex := by
  rw [floatValOf]
  simp only [Bool.false_eq_true, if_false]
  positivity

theorem jsParseFloatL_nonneg (cs : List Char) (hnd : ∀ c ∈ cs, isNumDot c = true)
    (q : ℚ) (h : jsParseFloatL cs = some q) : 0 ≤ q := by
  have hhd : ¬ ((cs.dropWhile isWsJS).head? = some '-') := by
    cases hcs : cs.dropWhile isWsJS with
    | nil => simp
    | cons a t =>
      have ha : a ∈ cs :=
        (List.dropWhile_sublist isWsJS).subset (by rw [hcs]; exact List.mem_cons_self a t)
      have hna := hnd a ha
      simp only [List.head?, Option.some.injEq]
      intro he
      subst he
      exact absurd hna (by decide)
  rw [jsParseFloatL] at h
  simp only [decide_eq_false hhd] at h
  rcases ite_eq_iff.mp h with ⟨_, h2⟩ | ⟨_, h2⟩
  · exact absurd h2 (by simp)
  · rw [Option.some.injEq] at h2
    rw [← h2]
    exact floatValOf_nonneg _ _ _

theorem jsParseFloatL_digits (cs : List Char) (hne : cs ≠ [])
    (hd : ∀ c ∈ cs, c.isDigit = true) :
    jsParseFloatL cs = some ((digitsVal cs : ℚ)) := by
  obtain ⟨a, t, rfl⟩ : ∃ a t, cs = a :: t := by
    cases cs with
    | nil => exact absurd rfl hne
    | cons a t => exact ⟨a, t, rfl⟩
  have hda : (a :: t).dropWhile isWsJS = a :: t := by
    rw [List.dropWhile_cons, if_neg]
    rw [isDigit_not_wsJS a (hd a (List.mem_cons_self a t))]
    simp
  have haneg : ¬ ((some a : Option Char) = some '-') := by
    intro he
    rw [Option.some.injEq] at he
    exact absurd (hd a (List.mem_cons_self a t)) (by rw [he]; decide)
  have hapos : ¬ ((some a : Option Char) = some '+') := by
    intro he
    rw [Option.some.injEq] at he
    exact absurd (hd a (List.mem_cons_self a t)) (by rw [he]; decide)
  have htw : (a :: t).takeWhile Char.isDigit = a :: t := List.takeWhile_eq_self_iff.mpr hd
  have hdw : (a :: t).dropWhile Char.isDigit = [] := List.dropWhile_eq_nil_iff.mpr hd
  rw [jsParseFloatL]
  simp only [hda, List.head?_cons, decide_eq_false haneg, decide_eq_false hapos,
    Bool.or_self, Bool.false_eq_true, if_false, htw, hdw, List.head?_nil]
  norm_num [floatValOf, show digitsVal [] = 0 from rfl]
  intro hcontra
  rcases hcontra with hc | hc <;> simp at hc

theorem renderedBarWidthPct_bounds (c : ℚ) (h0 : 0 ≤ c) (h1 : c ≤ 1) :
    0 ≤ renderedBarWidthPct c ∧ renderedBarWidthPct c ≤ 100 := by
  rw [renderedBarWidthPct, jsRound]
  constructor
  · exact Int.le_floor.mpr (by push_cast; linarith)
  · have hlt : ⌊c * 100 + 1 / 2⌋ < 101 := Int.floor_lt.mpr (by push_cast; linarith)
    omega

theorem extractConviction_nonneg_le_one (s : String)
    (hub : ∀ v, parsedConvictionValue s = some v → v ≤ 100) :
    0 ≤ extractConviction s ∧ extractConviction s ≤ 1 := by
  by_cases hs : s = ""
  · rw [extractConviction, if_pos hs]; norm_num
  · rw [extractConviction, if_neg hs]
    rcases hc : convictionCapture s with _ | cap
    · norm_num
    · simp only
      rcases hp : jsParseFloat cap with _ | v
      · simp only [hp]; norm_num
      · simp only [hp]
        have hvnn : 0 ≤ v := jsParseFloatL_nonneg cap.data (convictionCapture_chars s cap hc) v hp
        have hvub : v ≤ 100 := hub v (by rw [parsedConvictionValue, hc, Option.some_bind, hp])
        split
        · constructor <;> linarith
        · constructor <;> linarith

theorem chartStep_response_latest (s : ChartState) (i : ℕ) (r : MarketOutcome) :
    (chartStep s (.response i r)).latest = s.latest := by
  rw [chartStep]
  split
  · rcases r with ⟨st, cnds, emsg⟩ | msg
    · rw [applyMarket]; split <;> rfl
    · rfl
  · rfl

theorem chartStep_stale (s : ChartState) (i : ℕ) (r : MarketOutcome) (h : i ≠ s.latest) :
    chartStep s (.response i r) = s := by
  rw [chartStep]
  exact if_neg h

theorem chartRun_append (s : ChartState) (l1 l2 : List ChartEvent) :
    chartRun s (l1 ++ l2) = chartRun (chartRun s l1) l2 := by
  induction l1 generalizing s with
  | nil => rfl
  | cons e t ih => rw [List.cons_append, chartRun, chartRun, ih]

theorem chartRun_stale (n : ℕ) :
    ∀ (l : List ChartEvent) (s : ChartState), s.latest = n →
      (∀ e ∈ l, staleResponseFor n e) → chartRun s l = s := by
  intro l
  induction l with
  | nil => intro s _ _; rfl
  | cons e t ih =>
    intro s hn hl
    have he := hl e (List.mem_cons_self e t)
    cases e with
    | dispatch => exact absurd he (by simp [staleResponseFor])
    | response i r =>
      rw [chartRun, chartStep_stale s i r (by rw [hn]; exact he)]
      exact ih s hn fun e2 he2 => hl e2 (List.mem_cons_of_mem _ he2)

/- ## Claim theorems -/

/-- C1 (amended): when the typed trade's `action` is a non-empty string or
its `entry` is a non-zero number (the JS-truthiness guard of Analyze.tsx
347), the rendered trade is independent of the text corpus and adopts every
typed field — empty strings collapsing to absent for the string fields,
`killed` defaulting to false, and the ticker falling back to the
caller-supplied ticker when absent or empty; no field comes from
text-pattern extraction. -/
theorem c1_typed_trade_precedence (bt : BackendTrade) (t1 t2 tkr : String)
    (h : truthyS bt.action = true ∨ truthyQ bt.entry = true) :
    renderedTrade (some bt) t1 tkr = renderedTrade (some bt) t2 tkr
    ∧ (renderedTrade (some bt) t1 tkr).ticker = some (jsOrStrD bt.ticker tkr)
    ∧ (renderedTrade (some bt) t1 tkr).action = jsOrNull bt.action
    ∧ (renderedTrade (some bt) t1 tkr).entry = bt.entry
    ∧ (renderedTrade (some bt) t1 tkr).stop = bt.stop
    ∧ (renderedTrade (some bt) t1 tkr).target = bt.target
    ∧ (renderedTrade (some bt) t1 tkr).riskReward = bt.riskReward
    ∧ (renderedTrade (some bt) t1 tkr).regime = jsOrNull bt.regime
    ∧ (renderedTrade (some bt) t1 tkr).conviction = bt.conviction
    ∧ (renderedTrade (some bt) t1 tkr).killed = (bt.killed == some true)
    ∧ (renderedTrade (some bt) t1 tkr).killReason = jsOrNull bt.killReason
    ∧ (renderedTrade (some bt) t1 tkr).riskDetails = bt.riskDetails := by
  have hg : tradeGuard bt = true := by
    rcases h with h | h
    · rw [tradeGuard, h, Bool.true_or]
    · rw [tradeGuard, h, Bool.or_true]
  simp [renderedTrade, hg]

/-- C1 witness: a typed trade with action `BUY` takes the typed branch on
any corpus. -/
theorem c1_witness :
    renderedTrade (some btBuy) "Status: REJECTED" "RELIANCE"
      = renderedTrade (some btBuy) "" "RELIANCE"
    ∧ (renderedTrade (some btBuy) "Status: REJECTED" "RELIANCE").entry = btBuy.entry := by
  have h := c1_typed_trade_precedence btBuy "Status: REJECTED" "" "RELIANCE"
    (Or.inl (by decide))
  exact ⟨h.1, h.2.2.2.1⟩

/-- C1 counterexample: the claim as stated says a typed trade with `entry`
set is adopted as-is; the code's guard uses JS truthiness, so `entry = 0`
(with no action) falls through to text extraction and the rendered entry is
absent, not 0. -/
theorem c1_counterexample :
    btEntryZero.entry = some 0
    ∧ (renderedTrade (some btEntryZero) "" "TCS").entry = none := by
  constructor
  · rfl
  · decide

/-- C2 (amended): flagged dominance holds on the text-only fallback path —
whenever `backendSteps` is absent or has fewer than seven entries, a corpus
containing `REJECTED`, `SKIPPED` or `killed` (case-insensitively) makes the
Trade Executor step (index 4) `flagged` regardless of any other evidence.
On the backend path (seven or more entries) the rejection corpus forces
`flagged` only when the backend status of that step is falsy or `pending`
and the Trade Executor evidence pattern also matches the corpus; a
non-pending backend status is adopted verbatim and is never overridden
(see the counterexample). -/
theorem c2_flagged_dominance (text : String) :
    (∀ bsOpt : Option (List RawStep),
      (bsOpt = none ∨ ∃ bs, bsOpt = some bs ∧ bs.length < 7) →
      rejectedEvidence text = true →
      ((parsePipelineSteps text bsOpt).get? 4).map StepData.status = some "flagged")
    ∧ (∀ (bs : List RawStep) (st : RawStep), 7 ≤ bs.length → bs.get? 4 = some st →
      jsOrStrD st.status "pending" = "pending" →
      stepPattern "Trade Executor" text = true →
      rejectedEvidence text = true →
      ((parsePipelineSteps text (some bs)).get? 4).map StepData.status = some "flagged") := by
  constructor
  · intro bsOpt hfb hrej
    have hfall : parsePipelineSteps text bsOpt
        = stepNames.map fun name => fallbackStep text name := by
      rcases hfb with rfl | ⟨bs, rfl, hlen⟩
      · rfl
      · rw [parsePipelineSteps, if_neg]
        have h7 : stepNames.length = 7 := rfl
        omega
    rw [hfall]
    have hget : ((stepNames.map fun name => fallbackStep text name).get? 4)
        = some (fallbackStep text "Trade Executor") := rfl
    rw [hget]
    have hflag : ((("Trade Executor" : String) = "Trade Executor" : Bool)
        && rejectedEvidence text) = true := by
      rw [hrej, Bool.and_true]
      decide
    simp [fallbackStep, hflag]
    intro h2
    rw [hrej] at h2
    exact absurd h2 (by decide)
  · intro bs st h7 hget hpend hpat hrej
    rw [parsePipelineSteps, if_pos (by have h7n : stepNames.length = 7 := rfl; omega)]
    rw [List.get?_map, List.get?_enum, hget]
    have hcond : ((jsOrStrD st.status "pending" = "pending" : Bool)
        && stepPattern "Trade Executor" text) = true := by
      rw [hpend, hpat, Bool.and_true]
      decide
    have hname : (stepNames[4]?).getD "" = "Trade Executor" := rfl
    simp [upgradeStep, hcond, hrej, hname, hpend, hpat]

/-- C2 witness: text-only parsing of a corpus containing `SKIPPED`, and the
backend path with a pending fifth entry, trade-executor evidence and a
rejection in the corpus. -/
theorem c2_witness :
    ((parsePipelineSteps "SKIPPED" none).get? 4).map StepData.status = some "flagged"
    ∧ ((parsePipelineSteps "Entry: 2800 REJECTED" (some bs7pending)).get? 4).map
        StepData.status = some "flagged" :=
  ⟨(c2_flagged_dominance "SKIPPED").1 none (Or.inl rfl) (by decide),
   (c2_flagged_dominance "Entry: 2800 REJECTED").2 bs7pending
     { status := none, summary := none, output := none, duration := none }
     (by decide) (by decide) (by decide) (by decide) (by decide)⟩

/-- C2 counterexample: with a seven-entry backend array whose fifth entry
has status `complete`, a corpus containing `REJECTED` leaves the Trade
Executor step `complete` — the backend status wins, contradicting the claim
that the corpus forces `flagged` regardless of the backend status. -/
theorem c2_counterexample :
    rejectedEvidence "Status: REJECTED" = true
    ∧ ((parsePipelineSteps "Status: REJECTED" (some bs7complete)).get? 4).map
        StepData.status = some "complete" := by
  constructor
  · decide
  · decide

/-- C3 (amended): a response to any request other than the latest one never
mutates the chart state (the effect's `cancelled` flag guards every
handler), and after a dispatch, the most recent request's successful
response determines the final candles for any interleaving of stale
responses around it — but the superseded request is not aborted at the
transport level (see the counterexample). -/
theorem c3_stale_response_never_applied (s : ChartState) (a b : List ChartEvent)
    (cs : List Candle)
    (ha : ∀ e ∈ a, staleResponseFor (chartStep s .dispatch).latest e)
    (hb : ∀ e ∈ b, staleResponseFor (chartStep s .dispatch).latest e) :
    (∀ (t : ChartState) (i : ℕ) (r : MarketOutcome), i ≠ t.latest →
        chartStep t (.response i r) = t)
    ∧ (chartRun (chartStep s .dispatch)
        (a ++ ChartEvent.response (chartStep s .dispatch).latest
            (.payload "success" (some cs) none) :: b)).candles = cs := by
  refine ⟨fun t i r h => chartStep_stale t i r h, ?_⟩
  generalize hs1 : chartStep s .dispatch = s1 at ha hb ⊢
  rw [chartRun_append]
  rw [chartRun_stale s1.latest a s1 rfl ha]
  rw [chartRun]
  have hstep : chartStep s1 (.response s1.latest (.payload "success" (some cs) none))
      = { s1 with candles := cs, chartLoading := false } := by
    rw [chartStep, if_pos rfl, applyMarket, if_neg (by simp)]
    rfl
  rw [hstep]
  rw [chartRun_stale s1.latest b ({ s1 with candles := cs, chartLoading := false }) rfl hb]

/-- C3 witness: a stale response before and a stale transport failure after
the latest request's response leave exactly the latest payload displayed. -/
theorem c3_witness :
    (chartRun (chartStep chartS0 .dispatch)
        ([ChartEvent.response 0 (.payload "success" (some [candle0]) none)]
          ++ ChartEvent.response 1 (.payload "success" (some [candle1]) none)
            :: [ChartEvent.response 0 (.transportFailure "late failure")])).candles
      = [candle1] := by
  have h := c3_stale_response_never_applied chartS0
    [ChartEvent.response 0 (.payload "success" (some [candle0]) none)]
    [ChartEvent.response 0 (.transportFailure "late failure")]
    [candle1]
    (by intro e he; rw [List.mem_singleton] at he; subst he; exact (by decide : (0 : ℕ) ≠ 1))
    (by intro e he; rw [List.mem_singleton] at he; subst he; exact (by decide : (0 : ℕ) ≠ 1))
  exact h.2

/-- C3 counterexample: the claim requires the superseded chart request to be
actively aborted at the transport level, but `fetchMarket` attaches no abort
signal to any request it issues, so no transport-level cancellation is
possible. -/
theorem c3_counterexample :
    (chartEffectRequest "RELIANCE" 2).hasAbortSignal = false
    ∧ (runAnalysisRequest "RELIANCE").hasAbortSignal = true := by
  constructor
  · rfl
  · rfl

/-- C4 (amended): when `ticker` or `periodIdx` changes, the effect sets
`chartLoading`, clears `chartError`, and leaves the candles untouched (the
code never clears them at fetch start); the loading state renders the
spinner in place of the chart, so candles from the previous ticker are not
displayed during the load. -/
theorem c4_fetch_start_postcondition (s : ChartState) :
    (chartStep s .dispatch).chartLoading = true
    ∧ (chartStep s .dispatch).chartError = none
    ∧ (chartStep s .dispatch).candles = s.candles
    ∧ renderChartPanel (chartStep s .dispatch) = .loadingSpinner := by
  refine ⟨rfl, rfl, rfl, ?_⟩
  simp [renderChartPanel, chartStep]

/-- C4 counterexample: the claim says `chart.candles` is cleared to the
empty sequence at fetch start; dispatching from a state with one candle
leaves that candle in the state. -/
theorem c4_counterexample :
    chartS0.candles ≠ [] ∧ (chartStep chartS0 .dispatch).candles = chartS0.candles := by
  constructor
  · decide
  · rfl

/-- C5 (amended): for text-extracted convictions the parsed value is
divided by 100 when above 1, so the rendered bar width lies in `[0, 100]`
whenever the parsed value is at most 100 (including the no-match default
0.5); a typed conviction is adopted unchanged with no clamping, and its
rendered width lies in `[0, 100]` whenever the typed value lies in `[0, 1]`
(absent defaults to
0.5).  Parsed values above 100 render widths above 100% (see the
counterexample). -/
theorem c5_conviction_clamp :
    (∀ sectionText : String,
      (∀ v, parsedConvictionValue sectionText = some v → v ≤ 100) →
      0 ≤ renderedBarWidthPct (extractConviction sectionText)
      ∧ renderedBarWidthPct (extractConviction sectionText) ≤ 100)
    ∧ (∀ side : BackendDebateSide,
      (∀ v, side.conviction = some v → 0 ≤ v ∧ v ≤ 1) →
      0 ≤ renderedBarWidthPct (adoptedThesis side).conviction
      ∧ renderedBarWidthPct (adoptedThesis side).conviction ≤ 100) := by
  constructor
  · intro s hub
    obtain ⟨h0, h1⟩ := extractConviction_nonneg_le_one s hub
    exact renderedBarWidthPct_bounds _ h0 h1
  · intro side hb
    have hcv : 0 ≤ (adoptedThesis side).conviction ∧ (adoptedThesis side).conviction ≤ 1 := by
      rcases hc : side.conviction with _ | v
      · rw [adoptedThesis, hc]
        norm_num
      · have hv := hb v hc
        rw [adoptedThesis, hc]
        simpa using hv
    exact renderedBarWidthPct_bounds _ hcv.1 hcv.2

/-- C5 witness: the integer conviction 88 is divided by 100 and rendered at
88%, and a typed conviction of 0.7 renders at 70% — both within bounds. -/
theorem c5_witness :
    (0 ≤ renderedBarWidthPct (extractConviction "Conviction: 88")
      ∧ renderedBarWidthPct (extractConviction "Conviction: 88") ≤ 100)
    ∧ (0 ≤ renderedBarWidthPct (adoptedThesis ⟨some ["strong breakout"], some (7 / 10)⟩).conviction
      ∧ renderedBarWidthPct (adoptedThesis ⟨some ["strong breakout"], some (7 / 10)⟩).conviction
          ≤ 100) := by
  constructor
  · refine c5_conviction_clamp.1 "Conviction: 88" ?_
    intro v hv
    have hcap : convictionCapture "Conviction: 88" = some "88" := by decide
    have hparse : jsParseFloat "88" = some ((digitsVal "88".data : ℚ)) :=
      jsParseFloatL_digits "88".data (by decide) (by decide)
    rw [parsedConvictionValue, hcap, Option.some_bind, hparse, Option.some.injEq] at hv
    rw [← hv, show digitsVal "88".data = 88 from by decide]
    norm_num
  · refine c5_conviction_clamp.2 ⟨some ["strong breakout"], some (7 / 10)⟩ ?_
    intro v hv
    rw [Option.some.injEq] at hv
    rw [← hv]
    norm_num

/-- C5 counterexample: the section `Conviction: 250` parses to 250, is
divided by 100 to 2.5, and renders a bar width of 250% — outside `[0, 100]`,
contradicting the claim that every rendered width is clamped. -/
theorem c5_counterexample :
    extractConviction "Conviction: 250" = 5 / 2
    ∧ renderedBarWidthPct (extractConviction "Conviction: 250") = 250
    ∧ ¬ (renderedBarWidthPct (extractConviction "Conviction: 250") ≤ 100) := by
  have hcap : convictionCapture "Conviction: 250" = some "250" := by decide
  have hparse : jsParseFloat "250" = some ((digitsVal "250".data : ℚ)) :=
    jsParseFloatL_digits "250".data (by decide) (by decide)
  have h1 : extractConviction "Conviction: 250" = 5 / 2 := by
    rw [extractConviction, if_neg (by decide), hcap]
    simp only [hparse]
    rw [show digitsVal "250".data = 250 from by decide]
    rw [if_pos (by norm_num : (1 : ℚ) < ((250 : ℕ) : ℚ))]
    norm_num
  have h2 : renderedBarWidthPct ((5 : ℚ) / 2) = 250 := by
    rw [renderedBarWidthPct, jsRound]
    rw [show (5 : ℚ) / 2 * 100 + 1 / 2 = 501 / 2 from by norm_num]
    rw [Int.floor_eq_iff]
    norm_num
  refine ⟨h1, by rw [h1, h2], by rw [h1, h2]; norm_num⟩

/-- C6: on every failed analysis run — transport failure, non-2xx HTTP
status, or the 5-minute deadline — the controller surfaces the error
message, resets the steps to absent and clears the loading flag; the
deadline's `AbortError` is surfaced exactly as
"Analysis timed out (>5 min). Try again.". -/
theorem c6_pipeline_failure_handling (o : FetchOutcome) (tkr msg : String)
    (h : runAnalysisResult o = .error msg) :
    (handleRunOutcome o tkr).error = some msg
    ∧ (handleRunOutcome o tkr).steps = none
    ∧ (handleRunOutcome o tkr).loading = false
    ∧ (o.isAbortError = true → msg = analysisTimeoutMessage) := by
  refine ⟨by rw [handleRunOutcome, h], by rw [handleRunOutcome, h], by rw [handleRunOutcome, h], ?_⟩
  intro hab
  cases o with
  | response ok status body => simp [FetchOutcome.isAbortError] at hab
  | netError name m =>
    rw [FetchOutcome.isAbortError, decide_eq_true_eq] at hab
    rw [runAnalysisResult, if_pos hab] at h
    exact (Except.error.inj h).symm

/-- C6 witness: an `AbortError` rejection (the fired deadline) surfaces the
exact timeout message, clears the steps and stops loading. -/
theorem c6_witness :
    (handleRunOutcome (.netError "AbortError" "The operation was aborted") "TCS").error
      = some analysisTimeoutMessage
    ∧ (handleRunOutcome (.netError "AbortError" "The operation was aborted") "TCS").steps = none
    ∧ (handleRunOutcome (.netError "AbortError" "The operation was aborted") "TCS").loading
      = false := by
  have h := c6_pipeline_failure_handling (.netError "AbortError" "The operation was aborted")
    "TCS" analysisTimeoutMessage rfl
  exact ⟨h.1, h.2.1, h.2.2.1⟩

/-- C7 (amended): the parsed steps list has exactly seven entries when the
backend array is absent or shorter than seven (the text-only fallback), but
mirrors the backend array's length when that array has seven or more
entries; the rendered pipeline view, however, always shows exactly the
seven fixed step names in order, whatever steps value it receives. -/
theorem c7_seven_step_rendering :
    (∀ text, (parsePipelineSteps text none).length = 7)
    ∧ (∀ text bs, bs.length < 7 → (parsePipelineSteps text (some bs)).length = 7)
    ∧ (∀ text bs, 7 ≤ bs.length → (parsePipelineSteps text (some bs)).length = bs.length)
    ∧ (∀ stepsOpt, (pipelineViewRows stepsOpt).map PipelineRow.name = stepNames) := by
  refine ⟨fun text => rfl, fun text bs h => ?_, fun text bs h => ?_, fun stepsOpt => rfl⟩
  · rw [parsePipelineSteps, if_neg]
    · rfl
    · have h7 : stepNames.length = 7 := rfl
      omega
  · rw [parsePipelineSteps, if_pos]
    · rw [List.length_map, List.enum_length]
    · have h7 : stepNames.length = 7 := rfl
      omega

/-- C7 witness: seven entries with no backend array, with an empty backend
array, backend length mirrored at seven entries, and the view's fixed
names. -/
theorem c7_witness :
    (parsePipelineSteps "" none).length = 7
    ∧ (parsePipelineSteps "" (some [])).length = 7
    ∧ (parsePipelineSteps "" (some bs7complete)).length = bs7complete.length
    ∧ (pipelineViewRows none).map PipelineRow.name = stepNames :=
  ⟨c7_seven_step_rendering.1 "", c7_seven_step_rendering.2.1 "" [] (by decide),
   c7_seven_step_rendering.2.2.1 "" bs7complete (by decide),
   c7_seven_step_rendering.2.2.2 none⟩

/-- C7 counterexample: an eight-entry backend array yields eight parsed
steps, contradicting the claim that the steps collection always has exactly
seven entries for every backend array. -/
theorem c7_counterexample :
    (parsePipelineSteps "" (some bs8complete)).length = 8
    ∧ (parsePipelineSteps "" (some bs8complete)).length ≠ 7 := by
  constructor
  · decide
  · decide

/-- C8 (amended): the analyze POST sends the ticker trimmed and uppercased;
the chart GET sends it merely trimmed, defaulting to RELIANCE when blank,
and preserves its case (see the counterexample); neither request gains a
".NS" suffix the trimmed input did not already have. -/
theorem c8_ticker_normalisation (t : String) (idx : ℕ) :
    (runAnalysisRequest t).bodyTicker = jsToUpper (jsTrim t)
    ∧ (chartEffectRequest t idx).ticker = (if jsTrim t = "" then "RELIANCE" else jsTrim t)
    ∧ endsWithStr (chartEffectRequest t idx).ticker ".NS" = endsWithStr (jsTrim t) ".NS"
    ∧ endsWithStr (runAnalysisRequest t).bodyTicker ".NS"
        = endsWithStr (jsToUpper (jsTrim t)) ".NS" := by
  refine ⟨rfl, rfl, ?_, rfl⟩
  by_cases h : jsTrim t = ""
  · rw [show (chartEffectRequest t idx).ticker
        = (if jsTrim t = "" then "RELIANCE" else jsTrim t) from rfl, if_pos h, h]
    decide
  · rw [show (chartEffectRequest t idx).ticker
        = (if jsTrim t = "" then "RELIANCE" else jsTrim t) from rfl, if_neg h]

/-- C8 counterexample: the claim says every request carries the ticker
trimmed and uppercased, but the chart GET for the ticker "infy" carries
"infy" unchanged — only the analyze POST uppercases. -/
theorem c8_counterexample :
    (chartEffectRequest "infy" 2).ticker = "infy"
    ∧ (runAnalysisRequest "infy").bodyTicker = "INFY"
    ∧ ("infy" : String) ≠ "INFY" := by
  refine ⟨rfl, by decide, by decide⟩

/-- C9 (amended): debate points are the newline-split, bullet-stripped lines
of the section, keeping only lines of length strictly greater than 10 and
strictly less than 300 that do not begin with a section header, at most six
of them in their original order.  A 10-character line and a 300-character
line are dropped, not kept (see the counterexample). -/
theorem c9_point_extraction (s : String) :
    (extractPoints s).length ≤ 6
    ∧ (∀ p ∈ extractPoints s, 10 < p.length ∧ p.length < 300 ∧ isSectionHeader p = false)
    ∧ (extractPoints s).Sublist ((jsSplitNewlines s).map stripBullet) := by
  by_cases hs : s = ""
  · rw [extractPoints, if_pos hs]
    refine ⟨by simp, by simp, List.nil_sublist _⟩
  · rw [extractPoints, if_neg hs]
    refine ⟨List.length_take_le _ _, ?_, (List.take_sublist _ _).trans (List.filter_sublist _)⟩
    intro p hp
    have hp2 := List.of_mem_filter (List.mem_of_mem_take hp)
    simp only [Bool.and_eq_true, decide_eq_true_eq, Bool.not_eq_true'] at hp2
    exact ⟨hp2.1.1, hp2.1.2, hp2.2⟩

/-- C9 witness: a bulleted 25-character line is kept (stripped and trimmed)
and satisfies the length and header conditions; the `Conviction:` line is
dropped. -/
theorem c9_witness :
    10 < ("first strong bullet point" : String).length
    ∧ ("first strong bullet point" : String).length < 300
    ∧ isSectionHeader "first strong bullet point" = false :=
  (c9_point_extraction "• first strong bullet point\nConviction: 0.9").2.1
    "first strong bullet point" (by decide)

/-- C9 counterexample: the claim says a 10-character line is kept, but the
code's strict `length > 10` filter drops the 10-character line
"abcdefghij". -/
theorem c9_counterexample :
    ("abcdefghij" : String).length = 10 ∧ extractPoints "abcdefghij" = [] := by
  constructor
  · decide
  · decide

/-- C10: in the shipped debate view both thesis panels receive
`highlighted = (selectedStepIndex === 3)`, so the bull and bear panels are
always highlighted together, exactly when the Debate step (index 3) is
selected; selecting any other index, including 4 (Trade Executor),
highlights neither panel. -/
theorem c10_debate_highlight :
    (∀ sel : Option ℕ, bullHighlighted sel = bearHighlighted sel
      ∧ bullHighlighted sel = decide (sel = some 3))
    ∧ bullHighlighted (some 4) = false ∧ bearHighlighted (some 4) = false := by
  refine ⟨fun sel => ⟨rfl, ?_⟩, rfl, rfl⟩
  rcases sel with _ | n
  · rfl
  · rw [Bool.eq_iff_iff]
    simp [bullHighlighted]

end AnalyzeWorkspace
